import Mathlib

/-!
Verification of the product-management CRUD service.

The source is a FastAPI application with three layers:
  * `InMemoryDB` (models/product.py): a dict from int id to product dict,
    guarded by a re-entrant lock; every method is a single critical section,
    so the store behaves as a sequential map and we embed it as such.
  * `ProductRepository` (repositories/product_repository.py): pass-through.
  * Router handlers (routers/products.py): validation and status mapping.

Embedding choices:
  * Python dicts preserve insertion order; `d[k] = v` keeps the position of
    an existing key and appends a new one, `del d[k]` removes the entry.
    We model the dict as an insertion-ordered association list.
  * Python floats are modelled as rationals (ℚ); the claims under study are
    structural (which records contribute to a sum, what is stored), not
    about IEEE rounding.
  * Handlers are pure functions `Store → input → result × Store`;
    `raise HTTPException(status, detail)` becomes an error result carrying
    the same status and detail.
-/

namespace ProductAPI

/-- A well-formed stored product record: the dict produced by
`payload.model_dump()` with keys id, name, price, quantity. -/
structure ProductRec where
  id : Int
  name : String
  price : ℚ
  quantity : Int
deriving Repr, DecidableEq

/-- The `InMemoryDB._items` dict: `Dict[int, Dict]` keyed by product id,
modelled as an insertion-ordered association list. -/
abbrev Store := List (Int × ProductRec)

/-- Python `d.get(k)`: the value at the first (unique) matching key. -/
def dictGet (s : Store) (k : Int) : Option ProductRec :=
  (s.find? (fun kv => kv.1 == k)).map (fun kv => kv.2)

/-- Python `d[k] = v`: replace in place when the key is present (position
preserved), append otherwise. -/
def dictSet (s : Store) (k : Int) (v : ProductRec) : Store :=
  if s.any (fun kv => kv.1 == k) then
    s.map (fun kv => if kv.1 == k then (k, v) else kv)
  else
    s ++ [(k, v)]

/-- Python `del d[k]`: drop the entry with key `k`. -/
def dictDel (s : Store) (k : Int) : Store :=
  s.filter (fun kv => !(kv.1 == k))

namespace InMemoryDB

/-- `InMemoryDB.list_all`: `list(self._items.values())`. -/
def list_all (s : Store) : List ProductRec := s.map (fun kv => kv.2)

/-- `InMemoryDB.get`: `self._items.get(product_id)`. -/
def get (s : Store) (product_id : Int) : Option ProductRec :=
  dictGet s product_id

/-- `InMemoryDB.create`: `self._items[product["id"]] = product`. -/
def create (s : Store) (product : ProductRec) : Store :=
  dictSet s product.id product

/-- `InMemoryDB.update`: `self._items[product_id] = product`. -/
def update (s : Store) (product_id : Int) (product : ProductRec) : Store :=
  dictSet s product_id product

/-- `InMemoryDB.delete`: `if product_id in self._items: del self._items[product_id]`. -/
def delete (s : Store) (product_id : Int) : Store :=
  if (dictGet s product_id).isSome then dictDel s product_id else s

end InMemoryDB

namespace ProductRepository

/-- `ProductRepository.list_products`. -/
def list_products (s : Store) : List ProductRec := InMemoryDB.list_all s

/-- `ProductRepository.get_product`. -/
def get_product (s : Store) (product_id : Int) : Option ProductRec :=
  InMemoryDB.get s product_id

/-- `ProductRepository.create_product`. -/
def create_product (s : Store) (product : ProductRec) : Store :=
  InMemoryDB.create s product

/-- `ProductRepository.update_product`. -/
def update_product (s : Store) (product_id : Int) (product : ProductRec) : Store :=
  InMemoryDB.update s product_id product

/-- `ProductRepository.delete_product`. -/
def delete_product (s : Store) (product_id : Int) : Store :=
  InMemoryDB.delete s product_id

/-- `ProductRepository.exists`: `db.get(product_id) is not None`
(named `existsId` because `exists` is reserved in Lean). -/
def existsId (s : Store) (product_id : Int) : Bool :=
  (InMemoryDB.get s product_id).isSome

end ProductRepository

/-- Pydantic `ProductCreate` payload: id, name, price, quantity. -/
structure ProductCreate where
  id : Int
  name : String
  price : ℚ
  quantity : Int
deriving Repr, DecidableEq

/-- Pydantic `ProductUpdate` payload: name, price, quantity (id comes from
the path). -/
structure ProductUpdate where
  name : String
  price : ℚ
  quantity : Int
deriving Repr, DecidableEq

/-- The schema-boundary constraints pydantic enforces on `ProductBase`
before a handler runs: `price: Field(ge=0)`, `quantity: Field(ge=0)`. -/
def ProductCreate.schemaValid (p : ProductCreate) : Prop :=
  0 ≤ p.price ∧ 0 ≤ p.quantity

instance : DecidablePred ProductCreate.schemaValid := fun p => by
  unfold ProductCreate.schemaValid; infer_instance

/-- The schema-boundary constraints pydantic enforces on `ProductUpdate`. -/
def ProductUpdate.schemaValid (p : ProductUpdate) : Prop :=
  0 ≤ p.price ∧ 0 ≤ p.quantity

instance : DecidablePred ProductUpdate.schemaValid := fun p => by
  unfold ProductUpdate.schemaValid; infer_instance

/-- Modelled from the Python builtin `str.strip()`: drop whitespace from
both ends (structurally recursive so the kernel can evaluate it). -/
def pyStrip (s : String) : String :=
  ⟨((s.data.dropWhile Char.isWhitespace).reverse.dropWhile Char.isWhitespace).reverse⟩

/-- Outcome of a handler: a success with HTTP status and body, or a raised
`HTTPException(status_code, detail)`. -/
inductive HandlerResult (α : Type) where
  | ok (status : Nat) (body : α)
  | httpError (status : Nat) (detail : String)
deriving Repr, DecidableEq

/-- A Python runtime value as it may sit in a record's price/quantity slot:
an int, a float, a string, or None. -/
inductive PyVal where
  | int (n : Int)
  | float (q : ℚ)
  | str (s : String)
  | none
deriving Repr, DecidableEq

/-- Truncation toward zero, the behaviour of Python `int()` on a float. -/
def pyTrunc (q : ℚ) : Int :=
  if q < 0 then -(Int.floor (-q)) else Int.floor q

/-- Digits of a decimal string as a natural number (helper for the model of
Python `float()`). -/
def decDigitsVal (s : String) : Nat :=
  s.foldl (fun a c => a * 10 + (c.toNat - 48)) 0

/-- Modelled from the Python builtin `float(str)`: parse an optional sign,
integer part, optional fractional part; `Option.none` where Python raises
`ValueError`. -/
def parseFloatString (s : String) : Option ℚ :=
  let t := s.trim
  let (sign, body) :=
    if t.startsWith "-" then ((-1 : ℚ), t.drop 1)
    else if t.startsWith "+" then ((1 : ℚ), t.drop 1)
    else ((1 : ℚ), t)
  match body.splitOn "." with
  | [w] =>
      if w.length > 0 && w.toList.all Char.isDigit then
        some (sign * (decDigitsVal w : ℚ))
      else Option.none
  | [w, f] =>
      if (w.length > 0 || f.length > 0) && w.toList.all Char.isDigit
          && f.toList.all Char.isDigit then
        some (sign * ((decDigitsVal w : ℚ) + (decDigitsVal f : ℚ) / (10 : ℚ) ^ f.length))
      else Option.none
  | _ => Option.none

/-- Modelled from the Python builtin `float(x)`: ints and floats pass
through, numeric strings parse, None raises TypeError. -/
def pyFloatOf : PyVal → Option ℚ
  | .int n => some (n : ℚ)
  | .float q => some q
  | .str s => parseFloatString s
  | .none => Option.none

/-- Modelled from the Python builtin `int(x)`: ints pass through, floats
truncate toward zero, strings must be integer literals, None raises. -/
def pyIntOf : PyVal → Option Int
  | .int n => some n
  | .float q => some (pyTrunc q)
  | .str s => s.trim.toInt?
  | .none => Option.none

/-- A stored record as the balance aggregator sees it: an arbitrary dict,
of which only the "price" and "quantity" slots are read
(`Option.none` = key absent, read back as `0` by `p.get(key, 0)`). -/
structure RawProduct where
  priceVal : Option PyVal
  quantityVal : Option PyVal
deriving Repr, DecidableEq

/-- One iteration of the `for p in products` loop in `get_total_balance`:
`price = float(p.get("price", 0)); qty = int(p.get("quantity", 0))`
inside `try`, with `continue` on TypeError/ValueError, then
`total += price * qty`. -/
def balanceStep (total : ℚ) (p : RawProduct) : ℚ :=
  match pyFloatOf (p.priceVal.getD (.int 0)), pyIntOf (p.quantityVal.getD (.int 0)) with
  | some price, some qty => total + price * (qty : ℚ)
  | _, _ => total

/-- The whole loop of `get_total_balance` starting from `total = 0.0`. -/
def balanceLoop (products : List RawProduct) : ℚ :=
  products.foldl balanceStep 0

/-- A well-formed stored record viewed as the raw dict the aggregator
reads: price is a Python float, quantity a Python int. -/
def ProductRec.toRaw (p : ProductRec) : RawProduct :=
  ⟨some (.float p.price), some (.int p.quantity)⟩

namespace Routers

/-- Handler `GET /products` (`list_products`): returns every stored record. -/
def list_products (s : Store) : HandlerResult (List ProductRec) :=
  .ok 200 (ProductRepository.list_products s)

/-- Handler `GET /products/balance` (`get_total_balance`). -/
def get_total_balance (s : Store) : HandlerResult ℚ :=
  .ok 200 (balanceLoop ((ProductRepository.list_products s).map ProductRec.toRaw))

/-- Handler `POST /products` (`create_product`): empty-after-strip name →
400; duplicate id → 400; else store `payload.model_dump()` and return it
with 201. -/
def create_product (s : Store) (payload : ProductCreate) :
    HandlerResult ProductRec × Store :=
  if pyStrip payload.name = "" then
    (.httpError 400 "name must be non-empty", s)
  else if ProductRepository.existsId s payload.id then
    (.httpError 400 "id must be unique", s)
  else
    let product : ProductRec :=
      ⟨payload.id, payload.name, payload.price, payload.quantity⟩
    (.ok 201 product, ProductRepository.create_product s product)

/-- Handler `GET /products/{product_id}` (`get_product`).  The Python test
`if not prod` also fires on an empty dict, but a stored record always has
four keys, so falsiness coincides with absence. -/
def get_product (s : Store) (product_id : Int) : HandlerResult ProductRec :=
  match ProductRepository.get_product s product_id with
  | some prod => .ok 200 prod
  | Option.none => .httpError 404 "Product not found"

/-- Handler `PUT /products/{product_id}` (`update_product`): empty name →
400; absent id → 404; else store `{"id": product_id, **payload.model_dump()}`
and return it with 200. -/
def update_product (s : Store) (product_id : Int) (payload : ProductUpdate) :
    HandlerResult ProductRec × Store :=
  if pyStrip payload.name = "" then
    (.httpError 400 "name must be non-empty", s)
  else if ¬ ProductRepository.existsId s product_id then
    (.httpError 404 "Product not found", s)
  else
    let product : ProductRec :=
      ⟨product_id, payload.name, payload.price, payload.quantity⟩
    (.ok 200 product, ProductRepository.update_product s product_id product)

/-- Handler `DELETE /products/{product_id}` (`delete_product`): absent id →
404; else remove and return 204 with no content. -/
def delete_product (s : Store) (product_id : Int) :
    HandlerResult Unit × Store :=
  if ¬ ProductRepository.existsId s product_id then
    (.httpError 404 "Product not found", s)
  else
    (.ok 204 (), ProductRepository.delete_product s product_id)

end Routers

/-- Store states reachable from the empty store through the public mutating
handlers, fed payloads that passed the pydantic schema boundary. -/
inductive Reachable : Store → Prop where
  | empty : Reachable []
  | create (s : Store) (payload : ProductCreate) :
      Reachable s → payload.schemaValid →
      Reachable (Routers.create_product s payload).2
  | update (s : Store) (product_id : Int) (payload : ProductUpdate) :
      Reachable s → payload.schemaValid →
      Reachable (Routers.update_product s product_id payload).2
  | delete (s : Store) (product_id : Int) :
      Reachable s → Reachable (Routers.delete_product s product_id).2

/-- Specification-side reformulation: the contribution of one stored
record to the balance, `Option.none` when the record is skipped because its
price or quantity does not parse. -/
def rawContrib (p : RawProduct) : Option ℚ :=
  match pyFloatOf (p.priceVal.getD (.int 0)), pyIntOf (p.quantityVal.getD (.int 0)) with
  | some price, some qty => some (price * (qty : ℚ))
  | _, _ => Option.none

lemma balanceStep_eq (acc : ℚ) (p : RawProduct) :
    balanceStep acc p = acc + (rawContrib p).getD 0 := by
  unfold balanceStep rawContrib
  cases h1 : pyFloatOf (p.priceVal.getD (.int 0)) <;>
    cases h2 : pyIntOf (p.quantityVal.getD (.int 0)) <;> simp

lemma foldl_balanceStep (ps : List RawProduct) (acc : ℚ) :
    ps.foldl balanceStep acc = acc + (ps.filterMap rawContrib).sum := by
  induction ps generalizing acc with
  | nil => simp
  | cons p t ih =>
      rw [List.foldl_cons, ih, balanceStep_eq]
      cases hc : rawContrib p <;> simp [hc, List.filterMap_cons, add_assoc]

lemma rawContrib_toRaw (p : ProductRec) :
    rawContrib p.toRaw = some (p.price * (p.quantity : ℚ)) := by
  simp [rawContrib, ProductRec.toRaw, pyFloatOf, pyIntOf]

lemma dictGet_cons (a : Int × ProductRec) (t : Store) (k : Int) :
    dictGet (a :: t) k = if a.1 = k then some a.2 else dictGet t k := by
  by_cases h : a.1 = k
  · rw [if_pos h]
    unfold dictGet
    rw [List.find?_cons_of_pos _ (by simpa using h)]
    rfl
  · rw [if_neg h]
    unfold dictGet
    rw [List.find?_cons_of_neg _ (by simpa using h)]

lemma dictGet_isSome_eq_any (s : Store) (k : Int) :
    (dictGet s k).isSome = s.any (fun kv => kv.1 == k) := by
  induction s with
  | nil => rfl
  | cons a t ih =>
      rw [dictGet_cons, List.any_cons]
      by_cases h : a.1 = k
      · have hb : (a.1 == k) = true := by simpa using h
        simp [h, hb]
      · have hb : (a.1 == k) = false := by simpa using h
        simpa [h, hb] using ih

lemma dictGet_eq_none_of_any_false (s : Store) (k : Int)
    (hfalse : s.any (fun kv => kv.1 == k) = false) :
    dictGet s k = Option.none := by
  have h1 := dictGet_isSome_eq_any s k
  rw [hfalse] at h1
  cases hd : dictGet s k with
  | none => rfl
  | some v => rw [hd] at h1; simp at h1

lemma existsId_eq_any (s : Store) (k : Int) :
    ProductRepository.existsId s k = s.any (fun kv => kv.1 == k) := by
  unfold ProductRepository.existsId InMemoryDB.get
  exact dictGet_isSome_eq_any s k

lemma dictGet_map_set_self (s : Store) (k : Int) (v : ProductRec) :
    dictGet (s.map (fun kv => if kv.1 == k then (k, v) else kv)) k =
      if s.any (fun kv => kv.1 == k) then some v else Option.none := by
  induction s with
  | nil => simp [dictGet]
  | cons a t ih =>
      rw [List.map_cons, List.any_cons]
      by_cases h : a.1 = k
      · have hb : (a.1 == k) = true := by simpa using h
        simp only [hb, if_true, Bool.true_or]
        rw [dictGet_cons]
        simp
      · have hb : (a.1 == k) = false := by simpa using h
        simp only [hb, if_false, Bool.false_or]
        rw [dictGet_cons]
        simpa [h] using ih

lemma dictGet_map_set_ne (s : Store) (k kp : Int) (v : ProductRec)
    (hne : kp ≠ k) :
    dictGet (s.map (fun kv => if kv.1 == k then (k, v) else kv)) kp =
      dictGet s kp := by
  have hkkp : ¬ ((k : Int) = kp) := fun hc => hne hc.symm
  induction s with
  | nil => rfl
  | cons a t ih =>
      rw [List.map_cons]
      by_cases h : a.1 = k
      · have hb : (a.1 == k) = true := by simpa using h
        have h2 : ¬ (a.1 = kp) := by rw [h]; exact hkkp
        simp only [hb, if_true]
        rw [dictGet_cons, dictGet_cons, ih]
        simp [hkkp, h2]
      · have hb : (a.1 == k) = false := by simpa using h
        rw [if_neg (show ¬ ((a.1 == k) = true) by simp [hb])]
        rw [dictGet_cons, dictGet_cons, ih]

lemma dictGet_append (s t : Store) (k : Int) :
    dictGet (s ++ t) k =
      match dictGet s k with
      | some v => some v
      | Option.none => dictGet t k := by
  induction s with
  | nil => simp [dictGet]
  | cons a u ih =>
      rw [List.cons_append, dictGet_cons, dictGet_cons]
      by_cases h : a.1 = k
      · simp [h]
      · simpa [h] using ih

lemma dictGet_dictSet_self (s : Store) (k : Int) (v : ProductRec) :
    dictGet (dictSet s k v) k = some v := by
  unfold dictSet
  by_cases hany : s.any (fun kv => kv.1 == k) = true
  · rw [if_pos hany, dictGet_map_set_self, if_pos hany]
  · have hfalse : s.any (fun kv => kv.1 == k) = false := by
      cases hb : s.any (fun kv => kv.1 == k)
      · rfl
      · exact absurd hb hany
    rw [if_neg hany, dictGet_append, dictGet_eq_none_of_any_false s k hfalse]
    show dictGet [(k, v)] k = some v
    rw [dictGet_cons]
    simp

lemma dictGet_dictSet_ne (s : Store) (k kp : Int) (v : ProductRec)
    (hne : kp ≠ k) :
    dictGet (dictSet s k v) kp = dictGet s kp := by
  have hkkp : ¬ ((k : Int) = kp) := fun hc => hne hc.symm
  unfold dictSet
  by_cases hany : s.any (fun kv => kv.1 == k) = true
  · rw [if_pos hany, dictGet_map_set_ne s k kp v hne]
  · rw [if_neg hany, dictGet_append]
    have h1 : dictGet [(k, v)] kp = Option.none := by
      rw [dictGet_cons]
      simp [hkkp, dictGet]
    rw [h1]
    cases hd : dictGet s kp <;> rfl

lemma dictGet_dictDel_self (s : Store) (k : Int) :
    dictGet (dictDel s k) k = Option.none := by
  induction s with
  | nil => rfl
  | cons a t ih =>
      unfold dictDel at ih ⊢
      rw [List.filter_cons]
      by_cases h : a.1 = k
      · have hb : (a.1 == k) = true := by simpa using h
        simpa [hb] using ih
      · have hb : (a.1 == k) = false := by simpa using h
        simp only [hb, Bool.not_false, if_true]
        rw [dictGet_cons]
        simpa [h] using ih

lemma dictGet_dictDel_ne (s : Store) (k kp : Int) (hne : kp ≠ k) :
    dictGet (dictDel s k) kp = dictGet s kp := by
  induction s with
  | nil => rfl
  | cons a t ih =>
      unfold dictDel at ih ⊢
      rw [List.filter_cons]
      by_cases h : a.1 = k
      · have h2 : ¬ (a.1 = kp) := by rw [h]; exact fun hc => hne hc.symm
        have hb : (a.1 == k) = true := by simpa using h
        rw [if_neg (show ¬ ((!(a.1 == k)) = true) by simp [hb])]
        rw [ih, dictGet_cons, if_neg h2]
      · have hb : (a.1 == k) = false := by simpa using h
        simp only [hb, Bool.not_false, if_true]
        rw [dictGet_cons, dictGet_cons, ih]

lemma keys_dictSet (s : Store) (k : Int) (v : ProductRec) :
    (dictSet s k v).map Prod.fst =
      if s.any (fun kv => kv.1 == k) then s.map Prod.fst
      else s.map Prod.fst ++ [k] := by
  unfold dictSet
  by_cases hany : s.any (fun kv => kv.1 == k) = true
  · rw [if_pos hany, if_pos hany, List.map_map]
    refine List.map_congr_left ?_
    intro kv _
    by_cases h : kv.1 = k
    · have hb : (kv.1 == k) = true := by simpa using h
      show (if (kv.1 == k) = true then (k, v) else kv).1 = kv.1
      rw [if_pos hb]
      exact h.symm
    · have hb : (kv.1 == k) = false := by simpa using h
      show (if (kv.1 == k) = true then (k, v) else kv).1 = kv.1
      rw [if_neg (by simp [hb])]
  · rw [if_neg hany, if_neg hany, List.map_append]
    rfl

lemma mem_dictSet (s : Store) (k : Int) (v : ProductRec)
    (kv : Int × ProductRec) (h : kv ∈ dictSet s k v) :
    kv = (k, v) ∨ kv ∈ s := by
  unfold dictSet at h
  by_cases hany : s.any (fun kv => kv.1 == k) = true
  · rw [if_pos hany] at h
    rcases List.mem_map.mp h with ⟨a, ha, hfa⟩
    by_cases hk : a.1 = k
    · left; rw [← hfa]; simp [hk]
    · right; rw [← hfa]; simpa [hk] using ha
  · rw [if_neg hany] at h
    rcases List.mem_append.mp h with h | h
    · right; exact h
    · left; simpa using h

lemma mem_dictDel (s : Store) (k : Int) (kv : Int × ProductRec)
    (h : kv ∈ dictDel s k) : kv ∈ s :=
  List.mem_of_mem_filter h

lemma nodup_keys_dictSet (s : Store) (k : Int) (v : ProductRec)
    (h : (s.map Prod.fst).Nodup) : ((dictSet s k v).map Prod.fst).Nodup := by
  rw [keys_dictSet]
  by_cases hany : s.any (fun kv => kv.1 == k) = true
  · rwa [if_pos hany]
  · rw [if_neg hany]
    have hnotin : k ∉ s.map Prod.fst := by
      intro hmem
      rcases List.mem_map.mp hmem with ⟨a, ha, hfa⟩
      have : s.any (fun kv => kv.1 == k) = true :=
        List.any_eq_true.mpr ⟨a, ha, by simpa using hfa⟩
      exact hany this
    refine List.Nodup.append h (List.nodup_singleton k) ?_
    intro x hx hx2
    rcases List.mem_singleton.mp hx2 with rfl
    exact hnotin hx

lemma nodup_keys_dictDel (s : Store) (k : Int)
    (h : (s.map Prod.fst).Nodup) : ((dictDel s k).map Prod.fst).Nodup :=
  ((List.filter_sublist s).map Prod.fst).nodup h

lemma existsId_false_dictGet (s : Store) (k : Int)
    (h : ProductRepository.existsId s k = false) :
    dictGet s k = Option.none := by
  unfold ProductRepository.existsId InMemoryDB.get at h
  cases hd : dictGet s k with
  | none => rfl
  | some v => rw [hd] at h; simp at h

lemma existsId_true_of_dictGet (s : Store) (k : Int) (r : ProductRec)
    (h : dictGet s k = some r) :
    ProductRepository.existsId s k = true := by
  unfold ProductRepository.existsId InMemoryDB.get
  rw [h]
  rfl

lemma filterMap_rawContrib_map (l : List ProductRec) :
    (l.map ProductRec.toRaw).filterMap rawContrib =
      l.map (fun p => p.price * (p.quantity : ℚ)) := by
  induction l with
  | nil => rfl
  | cons p t ih => simp [List.filterMap_cons, rawContrib_toRaw, ih]

lemma balanceLoop_wellformed (l : List ProductRec) :
    balanceLoop (l.map ProductRec.toRaw) =
      (l.map (fun p => p.price * (p.quantity : ℚ))).sum := by
  rw [balanceLoop, foldl_balanceStep, zero_add, filterMap_rawContrib_map]

/-- C1: for every store state, the total-balance operation returns the sum
over all currently stored records of price * quantity (quantity promoted to
the numeric type of price for the product), and returns 0 when the store
holds no records. -/
theorem balance_is_sum_of_price_times_quantity (s : Store) :
    Routers.get_total_balance s =
      .ok 200 ((s.map (fun kv => kv.2.price * (kv.2.quantity : ℚ))).sum) ∧
    Routers.get_total_balance ([] : Store) = .ok 200 0 := by
  constructor
  · unfold Routers.get_total_balance ProductRepository.list_products
      InMemoryDB.list_all
    rw [balanceLoop_wellformed, List.map_map]
    rfl
  · rfl

/-- C9: the balance computation silently skips every stored record whose
price or quantity does not parse as a number, sums the contributions of the
remaining records, and (being a total function) never fails as a whole. -/
theorem balance_skips_malformed (ps : List RawProduct) :
    balanceLoop ps = (ps.filterMap rawContrib).sum ∧
    (∀ p : RawProduct, rawContrib p = Option.none →
      balanceLoop (p :: ps) = balanceLoop ps) := by
  constructor
  · rw [balanceLoop, foldl_balanceStep, zero_add]
  · intro p hp
    rw [balanceLoop, balanceLoop, List.foldl_cons, balanceStep_eq, hp]
    simp

/-- Witness for C9 at a concrete malformed record (price slot holds
Python None). -/
theorem balance_skips_malformed_witness :
    rawContrib ⟨some PyVal.none, some (.int 3)⟩ = Option.none ∧
    balanceLoop [⟨some PyVal.none, some (.int 3)⟩,
                 ⟨some (.float 10), some (.int 2)⟩] =
      balanceLoop [⟨some (.float 10), some (.int 2)⟩] :=
  ⟨by decide,
   (balance_skips_malformed [⟨some (.float 10), some (.int 2)⟩]).2 _ (by decide)⟩

/-- C2: a create with a name that is empty after stripping fails 400 with
the validation detail (taking precedence over the duplicate-id check); a
create whose id already exists fails 400 with the conflict detail;
otherwise the record is stored with the name exactly as submitted and is
returned with status 201. -/
theorem create_product_contract (s : Store) (payload : ProductCreate) :
    (pyStrip payload.name = "" →
      Routers.create_product s payload =
        (.httpError 400 "name must be non-empty", s)) ∧
    (pyStrip payload.name ≠ "" →
      ProductRepository.existsId s payload.id = true →
      Routers.create_product s payload =
        (.httpError 400 "id must be unique", s)) ∧
    (pyStrip payload.name ≠ "" →
      ProductRepository.existsId s payload.id = false →
      (Routers.create_product s payload).1 =
        .ok 201 ⟨payload.id, payload.name, payload.price, payload.quantity⟩ ∧
      dictGet (Routers.create_product s payload).2 payload.id =
        some ⟨payload.id, payload.name, payload.price, payload.quantity⟩) := by
  refine ⟨?_, ?_, ?_⟩
  · intro h1
    simp [Routers.create_product, h1]
  · intro h1 h2
    simp [Routers.create_product, h1, h2]
  · intro h1 h2
    constructor
    · simp [Routers.create_product, h1, h2]
    · have hs2 : (Routers.create_product s payload).2 =
          dictSet s payload.id
            ⟨payload.id, payload.name, payload.price, payload.quantity⟩ := by
        simp [Routers.create_product, h1, h2, ProductRepository.create_product,
          InMemoryDB.create]
      rw [hs2, dictGet_dictSet_self]

/-- Witness for C2 at concrete inputs exercising all three branches. -/
theorem create_product_contract_witness :
    (Routers.create_product [] ⟨1, " ", 1, 1⟩ =
      (.httpError 400 "name must be non-empty", [])) ∧
    (Routers.create_product [((1 : Int), ⟨1, "a", 1, 1⟩)] ⟨1, "b", 2, 2⟩ =
      (.httpError 400 "id must be unique", [((1 : Int), ⟨1, "a", 1, 1⟩)])) ∧
    ((Routers.create_product [] ⟨1, "a", 1, 1⟩).1 = .ok 201 ⟨1, "a", 1, 1⟩ ∧
      dictGet (Routers.create_product [] ⟨1, "a", 1, 1⟩).2 1 =
        some ⟨1, "a", 1, 1⟩) :=
  ⟨(create_product_contract [] ⟨1, " ", 1, 1⟩).1 (by decide),
   (create_product_contract [((1 : Int), ⟨1, "a", 1, 1⟩)] ⟨1, "b", 2, 2⟩).2.1
     (by decide) (by decide),
   (create_product_contract [] ⟨1, "a", 1, 1⟩).2.2 (by decide) (by decide)⟩

/-- C3 counterexample: with a record stored at id 1, a create payload for
id 1 whose name is whitespace-only is rejected by the name check, so the
rejection does not carry the conflict error the claim requires for every
duplicate-id payload. -/
theorem duplicate_create_counterexample :
    dictGet [((1 : Int), ⟨1, "a", 1, 1⟩)] 1 = some ⟨1, "a", 1, 1⟩ ∧
    (Routers.create_product [((1 : Int), ⟨1, "a", 1, 1⟩)] ⟨1, " ", 1, 1⟩).1 ≠
      HandlerResult.httpError 400 "id must be unique" := by
  constructor
  · decide
  · decide

/-- C3 (amended): with a record stored at id k, any create payload for id k
is rejected — with the name-validation error when the payload's name is
empty after stripping, with the conflict error otherwise — and the store,
in particular the record at k, is unchanged. -/
theorem duplicate_create_rejected (s : Store) (k : Int) (r : ProductRec)
    (payload : ProductCreate) (hstored : dictGet s k = some r)
    (hid : payload.id = k) :
    (Routers.create_product s payload).2 = s ∧
    dictGet (Routers.create_product s payload).2 k = some r ∧
    (pyStrip payload.name = "" →
      (Routers.create_product s payload).1 =
        .httpError 400 "name must be non-empty") ∧
    (pyStrip payload.name ≠ "" →
      (Routers.create_product s payload).1 =
        .httpError 400 "id must be unique") := by
  have hex : ProductRepository.existsId s payload.id = true := by
    rw [hid]
    exact existsId_true_of_dictGet s k r hstored
  by_cases h1 : pyStrip payload.name = ""
  · refine ⟨by simp [Routers.create_product, h1], ?_, ?_, ?_⟩
    · rw [show (Routers.create_product s payload).2 = s by
        simp [Routers.create_product, h1]]
      exact hstored
    · intro _
      simp [Routers.create_product, h1]
    · intro hc
      exact absurd h1 hc
  · refine ⟨by simp [Routers.create_product, h1, hex], ?_, ?_, ?_⟩
    · rw [show (Routers.create_product s payload).2 = s by
        simp [Routers.create_product, h1, hex]]
      exact hstored
    · intro hc
      exact absurd hc h1
    · intro _
      simp [Routers.create_product, h1, hex]

/-- Witness for C3 (amended) at two concrete duplicate creates: one whose
name is whitespace-only (rejected by the validation error) and one whose
name is non-empty (rejected by the conflict error); the store is unchanged
in both. -/
theorem duplicate_create_rejected_witness :
    ((Routers.create_product [((1 : Int), ⟨1, "a", 1, 1⟩)] ⟨1, " ", 1, 1⟩).2 =
        [((1 : Int), ⟨1, "a", 1, 1⟩)] ∧
      dictGet (Routers.create_product [((1 : Int), ⟨1, "a", 1, 1⟩)]
          ⟨1, " ", 1, 1⟩).2 1 = some ⟨1, "a", 1, 1⟩ ∧
      (Routers.create_product [((1 : Int), ⟨1, "a", 1, 1⟩)] ⟨1, " ", 1, 1⟩).1 =
        .httpError 400 "name must be non-empty") ∧
    ((Routers.create_product [((1 : Int), ⟨1, "a", 1, 1⟩)] ⟨1, "b", 2, 2⟩).2 =
        [((1 : Int), ⟨1, "a", 1, 1⟩)] ∧
      dictGet (Routers.create_product [((1 : Int), ⟨1, "a", 1, 1⟩)]
          ⟨1, "b", 2, 2⟩).2 1 = some ⟨1, "a", 1, 1⟩ ∧
      (Routers.create_product [((1 : Int), ⟨1, "a", 1, 1⟩)] ⟨1, "b", 2, 2⟩).1 =
        .httpError 400 "id must be unique") := by
  have h1 := duplicate_create_rejected [((1 : Int), ⟨1, "a", 1, 1⟩)] 1
    ⟨1, "a", 1, 1⟩ ⟨1, " ", 1, 1⟩ (by decide) (by decide)
  have h2 := duplicate_create_rejected [((1 : Int), ⟨1, "a", 1, 1⟩)] 1
    ⟨1, "a", 1, 1⟩ ⟨1, "b", 2, 2⟩ (by decide) (by decide)
  exact ⟨⟨h1.1, h1.2.1, h1.2.2.1 (by decide)⟩,
         ⟨h2.1, h2.2.1, h2.2.2.2 (by decide)⟩⟩

/-- C4: whenever a create is accepted, an immediate get on the payload's id
returns a record equal to the payload in all four fields, and the record
returned by the create is that same record. -/
theorem create_then_get_roundtrip (s : Store) (payload : ProductCreate)
    (r : ProductRec) (s2 : Store)
    (hok : Routers.create_product s payload = (.ok 201 r, s2)) :
    Routers.get_product s2 payload.id =
      .ok 200 ⟨payload.id, payload.name, payload.price, payload.quantity⟩ ∧
    r = ⟨payload.id, payload.name, payload.price, payload.quantity⟩ := by
  by_cases h1 : pyStrip payload.name = ""
  · simp [Routers.create_product, h1] at hok
  · by_cases h2 : ProductRepository.existsId s payload.id = true
    · simp [Routers.create_product, h1, h2] at hok
    · have h2f : ProductRepository.existsId s payload.id = false := by
        cases hb : ProductRepository.existsId s payload.id
        · rfl
        · exact absurd hb h2
      simp [Routers.create_product, h1, h2f, ProductRepository.create_product,
        InMemoryDB.create] at hok
      obtain ⟨hr, hs⟩ := hok
      have hget : dictGet s2 payload.id =
          some ⟨payload.id, payload.name, payload.price, payload.quantity⟩ := by
        rw [← hs]
        exact dictGet_dictSet_self s payload.id _
      constructor
      · unfold Routers.get_product ProductRepository.get_product InMemoryDB.get
        rw [hget]
      · exact hr.symm

/-- Witness for C4 at a concrete accepted create. -/
theorem create_then_get_roundtrip_witness :
    Routers.get_product [((1 : Int), ⟨1, "a", 1, 1⟩)] 1 =
      .ok 200 ⟨1, "a", 1, 1⟩ ∧
    (⟨1, "a", 1, 1⟩ : ProductRec) = ⟨1, "a", 1, 1⟩ :=
  create_then_get_roundtrip [] ⟨1, "a", 1, 1⟩ ⟨1, "a", 1, 1⟩
    [((1 : Int), ⟨1, "a", 1, 1⟩)] (by decide)

/-- C5: an update whose name is empty after stripping fails 400 with the
validation detail (checked before existence); an update on an absent id
fails 404; otherwise the record at the target id becomes exactly the
payload fields with the id forced to the target — fully replaced, not
merged — and that record is returned with status 200. -/
theorem update_product_contract (s : Store) (k : Int) (payload : ProductUpdate) :
    (pyStrip payload.name = "" →
      Routers.update_product s k payload =
        (.httpError 400 "name must be non-empty", s)) ∧
    (pyStrip payload.name ≠ "" →
      ProductRepository.existsId s k = false →
      Routers.update_product s k payload =
        (.httpError 404 "Product not found", s)) ∧
    (pyStrip payload.name ≠ "" →
      ProductRepository.existsId s k = true →
      (Routers.update_product s k payload).1 =
        .ok 200 ⟨k, payload.name, payload.price, payload.quantity⟩ ∧
      dictGet (Routers.update_product s k payload).2 k =
        some ⟨k, payload.name, payload.price, payload.quantity⟩) := by
  refine ⟨?_, ?_, ?_⟩
  · intro h1
    simp [Routers.update_product, h1]
  · intro h1 h2
    simp [Routers.update_product, h1, h2]
  · intro h1 h2
    constructor
    · simp [Routers.update_product, h1, h2]
    · have hs2 : (Routers.update_product s k payload).2 =
          dictSet s k ⟨k, payload.name, payload.price, payload.quantity⟩ := by
        simp [Routers.update_product, h1, h2, ProductRepository.update_product,
          InMemoryDB.update]
      rw [hs2, dictGet_dictSet_self]

/-- Witness for C5 at concrete inputs exercising all three branches. -/
theorem update_product_contract_witness :
    (Routers.update_product [] 1 ⟨" ", 1, 1⟩ =
      (.httpError 400 "name must be non-empty", [])) ∧
    (Routers.update_product [] 1 ⟨"b", 1, 1⟩ =
      (.httpError 404 "Product not found", [])) ∧
    ((Routers.update_product [((1 : Int), ⟨1, "a", 1, 1⟩)] 1 ⟨"b", 2, 3⟩).1 =
      .ok 200 ⟨1, "b", 2, 3⟩ ∧
      dictGet (Routers.update_product [((1 : Int), ⟨1, "a", 1, 1⟩)] 1
          ⟨"b", 2, 3⟩).2 1 = some ⟨1, "b", 2, 3⟩) :=
  ⟨(update_product_contract [] 1 ⟨" ", 1, 1⟩).1 (by decide),
   (update_product_contract [] 1 ⟨"b", 1, 1⟩).2.1 (by decide) (by decide),
   (update_product_contract [((1 : Int), ⟨1, "a", 1, 1⟩)] 1 ⟨"b", 2, 3⟩).2.2
     (by decide) (by decide)⟩

/-- C6: deleting an absent id fails 404 and leaves the store unchanged, so
a second delete of the same absent id also fails 404; deleting a present id
removes the record and yields status 204 with no content. -/
theorem delete_product_contract (s : Store) (k : Int) :
    (ProductRepository.existsId s k = false →
      Routers.delete_product s k = (.httpError 404 "Product not found", s) ∧
      (Routers.delete_product (Routers.delete_product s k).2 k).1 =
        .httpError 404 "Product not found") ∧
    (ProductRepository.existsId s k = true →
      (Routers.delete_product s k).1 = .ok 204 () ∧
      dictGet (Routers.delete_product s k).2 k = Option.none) := by
  constructor
  · intro h1
    have hfirst : Routers.delete_product s k =
        (.httpError 404 "Product not found", s) := by
      simp [Routers.delete_product, h1]
    refine ⟨hfirst, ?_⟩
    rw [hfirst]
    simp [Routers.delete_product, h1]
  · intro h1
    constructor
    · simp [Routers.delete_product, h1]
    · have hs2 : (Routers.delete_product s k).2 = dictDel s k := by
        have hsome : (dictGet s k).isSome = true := h1
        simp [Routers.delete_product, h1, ProductRepository.delete_product,
          InMemoryDB.delete, hsome]
      rw [hs2, dictGet_dictDel_self]

/-- Witness for C6: deleting id 9 twice on an empty store, and deleting a
present id. -/
theorem delete_product_contract_witness :
    (Routers.delete_product ([] : Store) 9 =
      (.httpError 404 "Product not found", []) ∧
      (Routers.delete_product (Routers.delete_product ([] : Store) 9).2 9).1 =
        .httpError 404 "Product not found") ∧
    ((Routers.delete_product [((1 : Int), ⟨1, "a", 1, 1⟩)] 1).1 = .ok 204 () ∧
      dictGet (Routers.delete_product [((1 : Int), ⟨1, "a", 1, 1⟩)] 1).2 1 =
        Option.none) :=
  ⟨(delete_product_contract [] 9).1 (by decide),
   (delete_product_contract [((1 : Int), ⟨1, "a", 1, 1⟩)] 1).2 (by decide)⟩

/-- C8: a successful create appends the new record at the end of the
listing (insertion order), and a successful update keeps every key at its
position, replacing only the targeted record's fields in place. -/
theorem list_insertion_order (s : Store) (k : Int)
    (pc : ProductCreate) (pu : ProductUpdate) :
    (pyStrip pc.name ≠ "" → ProductRepository.existsId s pc.id = false →
      ProductRepository.list_products (Routers.create_product s pc).2 =
        ProductRepository.list_products s ++
          [⟨pc.id, pc.name, pc.price, pc.quantity⟩]) ∧
    (pyStrip pu.name ≠ "" → ProductRepository.existsId s k = true →
      ((Routers.update_product s k pu).2).map Prod.fst = s.map Prod.fst ∧
      ProductRepository.list_products (Routers.update_product s k pu).2 =
        s.map (fun kv =>
          if kv.1 = k then (⟨k, pu.name, pu.price, pu.quantity⟩ : ProductRec)
          else kv.2)) := by
  constructor
  · intro h1 h2
    have hany : s.any (fun kv => kv.1 == pc.id) = false := by
      rw [← existsId_eq_any]
      exact h2
    have hs2 : (Routers.create_product s pc).2 =
        s ++ [(pc.id, ⟨pc.id, pc.name, pc.price, pc.quantity⟩)] := by
      simp [Routers.create_product, h1, h2, ProductRepository.create_product,
        InMemoryDB.create, dictSet, hany]
    rw [hs2]
    unfold ProductRepository.list_products InMemoryDB.list_all
    rw [List.map_append]
    rfl
  · intro h1 h2
    have hany : s.any (fun kv => kv.1 == k) = true := by
      rw [← existsId_eq_any]
      exact h2
    have hs2 : (Routers.update_product s k pu).2 =
        s.map (fun kv =>
          if kv.1 == k then (k, ⟨k, pu.name, pu.price, pu.quantity⟩) else kv) := by
      simp [Routers.update_product, h1, h2, ProductRepository.update_product,
        InMemoryDB.update, dictSet, hany]
    constructor
    · rw [hs2, List.map_map]
      refine List.map_congr_left ?_
      intro kv _
      by_cases h : kv.1 = k
      · have hb : (kv.1 == k) = true := by simpa using h
        show (if (kv.1 == k) = true then
            ((k, ⟨k, pu.name, pu.price, pu.quantity⟩) : Int × ProductRec)
          else kv).1 = kv.1
        rw [if_pos hb]
        exact h.symm
      · have hb : (kv.1 == k) = false := by simpa using h
        show (if (kv.1 == k) = true then
            ((k, ⟨k, pu.name, pu.price, pu.quantity⟩) : Int × ProductRec)
          else kv).1 = kv.1
        rw [if_neg (by simp [hb])]
    · rw [hs2]
      unfold ProductRepository.list_products InMemoryDB.list_all
      rw [List.map_map]
      refine List.map_congr_left ?_
      intro kv _
      by_cases h : kv.1 = k
      · have hb : (kv.1 == k) = true := by simpa using h
        show (if (kv.1 == k) = true then
            ((k, ⟨k, pu.name, pu.price, pu.quantity⟩) : Int × ProductRec)
          else kv).2 = if kv.1 = k then _ else kv.2
        rw [if_pos hb, if_pos h]
      · have hb : (kv.1 == k) = false := by simpa using h
        show (if (kv.1 == k) = true then
            ((k, ⟨k, pu.name, pu.price, pu.quantity⟩) : Int × ProductRec)
          else kv).2 = if kv.1 = k then _ else kv.2
        rw [if_neg (by simp [hb]), if_neg h]

/-- Witness for C8: a concrete create (append) and a concrete in-place
update on a two-record store. -/
theorem list_insertion_order_witness :
    (ProductRepository.list_products
        (Routers.create_product
          [((1 : Int), ⟨1, "a", 1, 1⟩)] ⟨2, "b", 2, 2⟩).2 =
      ProductRepository.list_products [((1 : Int), ⟨1, "a", 1, 1⟩)] ++
        [⟨2, "b", 2, 2⟩]) ∧
    (((Routers.update_product
          [((1 : Int), ⟨1, "a", 1, 1⟩), ((2 : Int), ⟨2, "b", 2, 2⟩)] 1
          ⟨"c", 3, 3⟩).2).map Prod.fst =
        ([((1 : Int), ⟨1, "a", 1, 1⟩), ((2 : Int), ⟨2, "b", 2, 2⟩)] :
          Store).map Prod.fst ∧
      ProductRepository.list_products
        (Routers.update_product
          [((1 : Int), ⟨1, "a", 1, 1⟩), ((2 : Int), ⟨2, "b", 2, 2⟩)] 1
          ⟨"c", 3, 3⟩).2 =
        ([((1 : Int), ⟨1, "a", 1, 1⟩), ((2 : Int), ⟨2, "b", 2, 2⟩)] :
          Store).map (fun kv =>
            if kv.1 = 1 then (⟨1, "c", 3, 3⟩ : ProductRec) else kv.2)) :=
  ⟨(list_insertion_order [((1 : Int), ⟨1, "a", 1, 1⟩)] 0 ⟨2, "b", 2, 2⟩
      ⟨"x", 0, 0⟩).1 (by decide) (by decide),
   (list_insertion_order
      [((1 : Int), ⟨1, "a", 1, 1⟩), ((2 : Int), ⟨2, "b", 2, 2⟩)] 1
      ⟨0, "y", 0, 0⟩ ⟨"c", 3, 3⟩).2 (by decide) (by decide)⟩

/-- C7: every store state reachable from the empty store via the public
mutating operations has at most one record per id (no duplicate keys) and
every stored record has a name that is non-empty after stripping, a price
≥ 0 and a quantity ≥ 0. -/
theorem reachable_store_invariant (s : Store) (h : Reachable s) :
    (s.map Prod.fst).Nodup ∧
    ∀ kv ∈ s, pyStrip kv.2.name ≠ "" ∧ 0 ≤ kv.2.price ∧ 0 ≤ kv.2.quantity := by
  induction h with
  | empty =>
      exact ⟨List.nodup_nil, by intro kv hkv; cases hkv⟩
  | create s payload hr hv ih =>
      by_cases h1 : pyStrip payload.name = ""
      · simpa [Routers.create_product, h1] using ih
      · by_cases h2 : ProductRepository.existsId s payload.id = true
        · simpa [Routers.create_product, h1, h2] using ih
        · have hs2 : (Routers.create_product s payload).2 =
              dictSet s payload.id
                ⟨payload.id, payload.name, payload.price, payload.quantity⟩ := by
            simp [Routers.create_product, h1, h2,
              ProductRepository.create_product, InMemoryDB.create]
          rw [hs2]
          refine ⟨nodup_keys_dictSet _ _ _ ih.1, ?_⟩
          intro kv hkv
          rcases mem_dictSet _ _ _ _ hkv with hnew | hold
          · subst hnew
            exact ⟨h1, hv.1, hv.2⟩
          · exact ih.2 kv hold
  | update s product_id payload hr hv ih =>
      by_cases h1 : pyStrip payload.name = ""
      · simpa [Routers.update_product, h1] using ih
      · by_cases h2 : ProductRepository.existsId s product_id = true
        · have hs2 : (Routers.update_product s product_id payload).2 =
              dictSet s product_id
                ⟨product_id, payload.name, payload.price, payload.quantity⟩ := by
            simp [Routers.update_product, h1, h2,
              ProductRepository.update_product, InMemoryDB.update]
          rw [hs2]
          refine ⟨nodup_keys_dictSet _ _ _ ih.1, ?_⟩
          intro kv hkv
          rcases mem_dictSet _ _ _ _ hkv with hnew | hold
          · subst hnew
            exact ⟨h1, hv.1, hv.2⟩
          · exact ih.2 kv hold
        · simpa [Routers.update_product, h1, h2] using ih
  | delete s product_id hr ih =>
      by_cases h2 : ProductRepository.existsId s product_id = true
      · have hs2 : (Routers.delete_product s product_id).2 =
            dictDel s product_id := by
          simp [Routers.delete_product, h2, ProductRepository.delete_product,
            InMemoryDB.delete]
          intro hc
          exact absurd h2 (by simp [ProductRepository.existsId, InMemoryDB.get, hc])
        rw [hs2]
        exact ⟨nodup_keys_dictDel _ _ ih.1,
          fun kv hkv => ih.2 kv (mem_dictDel _ _ _ hkv)⟩
      · simpa [Routers.delete_product, h2] using ih

/-- Witness for C7 at the store reached by one successful create. -/
theorem reachable_store_invariant_witness :
    (([((1 : Int), (⟨1, "a", 1, 1⟩ : ProductRec))] : Store).map Prod.fst).Nodup ∧
    ∀ kv ∈ ([((1 : Int), (⟨1, "a", 1, 1⟩ : ProductRec))] : Store),
      pyStrip kv.2.name ≠ "" ∧ 0 ≤ kv.2.price ∧ 0 ≤ kv.2.quantity := by
  have hre : Reachable [((1 : Int), (⟨1, "a", 1, 1⟩ : ProductRec))] := by
    have h := Reachable.create [] ⟨1, "a", 1, 1⟩ Reachable.empty
      ⟨by norm_num, by norm_num⟩
    have he : (Routers.create_product [] (⟨1, "a", 1, 1⟩ : ProductCreate)).2 =
        [((1 : Int), (⟨1, "a", 1, 1⟩ : ProductRec))] := by decide
    rwa [he] at h
  exact reachable_store_invariant _ hre

/-- C10: in every reachable store state, each record is stored under its
own id field, so any record returned by get reports the id it was looked
up by. -/
theorem stored_record_id_matches_key (s : Store) (h : Reachable s) :
    (∀ kv ∈ s, kv.2.id = kv.1) ∧
    (∀ (k : Int) (p : ProductRec),
      Routers.get_product s k = .ok 200 p → p.id = k) := by
  have hmain : ∀ kv ∈ s, kv.2.id = kv.1 := by
    induction h with
    | empty => intro kv hkv; cases hkv
    | create s payload hr hv ih =>
        by_cases h1 : pyStrip payload.name = ""
        · simpa [Routers.create_product, h1] using ih
        · by_cases h2 : ProductRepository.existsId s payload.id = true
          · simpa [Routers.create_product, h1, h2] using ih
          · have hs2 : (Routers.create_product s payload).2 =
                dictSet s payload.id
                  ⟨payload.id, payload.name, payload.price, payload.quantity⟩ := by
              simp [Routers.create_product, h1, h2,
                ProductRepository.create_product, InMemoryDB.create]
            rw [hs2]
            intro kv hkv
            rcases mem_dictSet _ _ _ _ hkv with hnew | hold
            · subst hnew; rfl
            · exact ih kv hold
    | update s product_id payload hr hv ih =>
        by_cases h1 : pyStrip payload.name = ""
        · simpa [Routers.update_product, h1] using ih
        · by_cases h2 : ProductRepository.existsId s product_id = true
          · have hs2 : (Routers.update_product s product_id payload).2 =
                dictSet s product_id
                  ⟨product_id, payload.name, payload.price, payload.quantity⟩ := by
              simp [Routers.update_product, h1, h2,
                ProductRepository.update_product, InMemoryDB.update]
            rw [hs2]
            intro kv hkv
            rcases mem_dictSet _ _ _ _ hkv with hnew | hold
            · subst hnew; rfl
            · exact ih kv hold
          · simpa [Routers.update_product, h1, h2] using ih
    | delete s product_id hr ih =>
        by_cases h2 : ProductRepository.existsId s product_id = true
        · have hs2 : (Routers.delete_product s product_id).2 =
              dictDel s product_id := by
            simp [Routers.delete_product, h2, ProductRepository.delete_product,
              InMemoryDB.delete]
            intro hc
            exact absurd h2
              (by simp [ProductRepository.existsId, InMemoryDB.get, hc])
          rw [hs2]
          exact fun kv hkv => ih kv (mem_dictDel _ _ _ hkv)
        · simpa [Routers.delete_product, h2] using ih
  refine ⟨hmain, ?_⟩
  intro k p hget
  unfold Routers.get_product at hget
  cases hd : ProductRepository.get_product s k with
  | none => rw [hd] at hget; cases hget
  | some prod =>
      rw [hd] at hget
      have hp : prod = p := by
        cases hget
        rfl
      unfold ProductRepository.get_product InMemoryDB.get dictGet at hd
      obtain ⟨kv0, hfind, hsnd⟩ := Option.map_eq_some'.mp hd
      have hmem := List.mem_of_find?_eq_some hfind
      have hpred := List.find?_some hfind
      have hk : kv0.1 = k := by simpa using hpred
      rw [← hp, ← hsnd, hmain kv0 hmem, hk]

/-- Witness for C10 at the store reached by one successful create. -/
theorem stored_record_id_matches_key_witness :
    (∀ kv ∈ ([((1 : Int), (⟨1, "a", 1, 1⟩ : ProductRec))] : Store),
      kv.2.id = kv.1) ∧
    (∀ (k : Int) (p : ProductRec),
      Routers.get_product [((1 : Int), (⟨1, "a", 1, 1⟩ : ProductRec))] k =
        .ok 200 p → p.id = k) := by
  have hre : Reachable [((1 : Int), (⟨1, "a", 1, 1⟩ : ProductRec))] := by
    have h := Reachable.create [] ⟨1, "a", 1, 1⟩ Reachable.empty
      ⟨by norm_num, by norm_num⟩
    have he : (Routers.create_product [] (⟨1, "a", 1, 1⟩ : ProductCreate)).2 =
        [((1 : Int), (⟨1, "a", 1, 1⟩ : ProductRec))] := by decide
    rwa [he] at h
  exact stored_record_id_matches_key _ hre

end ProductAPI
